import Mathlib

/-!
Verification development for the Audiobot repository (`src/app.py` and
`src/main.py`): a shallow embedding of the JSON extractor, the schema
validator, the PDF renderers and the request orchestrator, together with
proofs of the specification's claims about them.
-/

namespace Audiobot

/-- JSON values as produced by Python's `json.loads`.  Numbers keep the
decimal mantissa and exponent read from the literal (value `m * 10 ^ e`);
the Python `int`/`float` type distinction is not tracked.  `nan` and
`inf` model the non-standard constants `NaN`, `Infinity` and `-Infinity`
that `json.loads` accepts.  Objects are association lists in Python-dict
insertion order with unique keys (a duplicate key in the source text
keeps its first position and takes the last value, as CPython dicts do). -/
inductive Json where
  | null : Json
  | bool : Bool → Json
  | num : Int → Int → Json
  | nan : Json
  | inf : Bool → Json
  | str : String → Json
  | arr : List Json → Json
  | obj : List (String × Json) → Json

/-- JSON whitespace skipped by `json.loads` (space, tab, newline, CR). -/
def isJsonWs (c : Char) : Bool :=
  c = ' ' || c = '\t' || c = '\n' || c = '\r'

/-- Skip leading JSON whitespace. -/
def skipWs (cs : List Char) : List Char := cs.dropWhile isJsonWs

/-- Value of a hexadecimal digit. -/
def hexVal (c : Char) : Option Nat :=
  if '0' ≤ c ∧ c ≤ '9' then some (c.toNat - '0'.toNat)
  else if 'a' ≤ c ∧ c ≤ 'f' then some (c.toNat - 'a'.toNat + 10)
  else if 'A' ≤ c ∧ c ≤ 'F' then some (c.toNat - 'A'.toNat + 10)
  else none

/-- Body of a JSON string literal, after the opening quote: characters up
to the closing quote, with the escapes `json.loads` accepts in strict
mode (strict mode rejects unescaped control characters).  A `\uXXXX`
high/low surrogate pair combines into one code point; a lone surrogate,
which Python would keep as-is in its string type, has no counterpart in
Lean's `Char` (scalar values only) and is treated as a parse failure. -/
def parseStringBody : List Char → List Char → Option (String × List Char)
  | [], _ => none
  | '"' :: rest, acc => some (⟨acc.reverse⟩, rest)
  | '\\' :: 'u' :: a :: b :: c :: d :: rest, acc =>
    match hexVal a, hexVal b, hexVal c, hexVal d with
    | some va, some vb, some vc, some vd =>
      let n := ((va * 16 + vb) * 16 + vc) * 16 + vd
      if n < 0xD800 ∨ 0xDFFF < n then
        parseStringBody rest (Char.ofNat n :: acc)
      else if n ≤ 0xDBFF then
        match rest with
        | '\\' :: 'u' :: e :: f :: g :: h :: rest2 =>
          match hexVal e, hexVal f, hexVal g, hexVal h with
          | some ve, some vf, some vg, some vh =>
            let m := ((ve * 16 + vf) * 16 + vg) * 16 + vh
            if 0xDC00 ≤ m ∧ m ≤ 0xDFFF then
              parseStringBody rest2
                (Char.ofNat (0x10000 + (n - 0xD800) * 0x400 + (m - 0xDC00)) :: acc)
            else none
          | _, _, _, _ => none
        | _ => none
      else none
    | _, _, _, _ => none
  | '\\' :: c :: rest, acc =>
    if c = '"' then parseStringBody rest ('"' :: acc)
    else if c = '\\' then parseStringBody rest ('\\' :: acc)
    else if c = '/' then parseStringBody rest ('/' :: acc)
    else if c = 'b' then parseStringBody rest ('\x08' :: acc)
    else if c = 'f' then parseStringBody rest ('\x0c' :: acc)
    else if c = 'n' then parseStringBody rest ('\n' :: acc)
    else if c = 'r' then parseStringBody rest ('\r' :: acc)
    else if c = 't' then parseStringBody rest ('\t' :: acc)
    else none
  | ['\\'], _ => none
  | c :: rest, acc =>
    if c.toNat < 0x20 then none else parseStringBody rest (c :: acc)

/-- Longest leading run of decimal digits, and the rest. -/
def takeDigits (cs : List Char) : List Char × List Char :=
  (cs.takeWhile Char.isDigit, cs.dropWhile Char.isDigit)

/-- Numeric value of a digit run. -/
def digitsToNat (ds : List Char) : Nat :=
  ds.foldl (fun n c => n * 10 + (c.toNat - '0'.toNat)) 0

/-- Optional exponent part of a JSON number (group `([eE][-+]?\d+)?` of
the `json` module's number regex): returns (negative sign, exponent
digits, rest); empty digits mean no exponent was consumed. -/
def parseExpPart (cs : List Char) : Bool × List Char × List Char :=
  match cs with
  | e :: r =>
    if e = 'e' ∨ e = 'E' then
      let (sgn, r2) :=
        match r with
        | '-' :: r' => (true, r')
        | '+' :: r' => (false, r')
        | _ => (false, r)
      let p := takeDigits r2
      if p.1 = [] then (false, [], cs) else (sgn, p.1, p.2)
    else (false, [], cs)
  | [] => (false, [], cs)

/-- A JSON number at the current position, per the `json` module's regex
`(-?(?:0|[1-9]\d*))(\.\d+)?([eE][-+]?\d+)?`: an optional group that does
not match is simply not consumed (so `"1."` reads the number `1` and
leaves `"."`, exactly as the regex does). -/
def parseNumber (cs : List Char) : Option (Json × List Char) :=
  let sp : Bool × List Char :=
    match cs with
    | '-' :: rest => (true, rest)
    | _ => (false, cs)
  match sp.2 with
  | [] => none
  | c :: rest =>
    if ¬ c.isDigit then none
    else
      let ip : List Char × List Char :=
        if c = '0' then ([c], rest)
        else ((c :: (takeDigits rest).1), (takeDigits rest).2)
      let fp : List Char × List Char :=
        match ip.2 with
        | '.' :: r =>
          if (takeDigits r).1 = [] then ([], ip.2)
          else ((takeDigits r).1, (takeDigits r).2)
        | _ => ([], ip.2)
      let ep := parseExpPart fp.2
      let mag : Nat := digitsToNat ip.1 * 10 ^ fp.1.length + digitsToNat fp.1
      let m : Int := if sp.1 then -(mag : Int) else (mag : Int)
      let exv : Int :=
        (if ep.1 then -(digitsToNat ep.2.1 : Int) else (digitsToNat ep.2.1 : Int))
          - (fp.1.length : Int)
      some (.num m exv, ep.2.2)

/-- Consume an exact literal. -/
def stripLit (lit cs : List Char) : Option (List Char) :=
  if lit.isPrefixOf cs then some (cs.drop lit.length) else none

/-- Python-dict item insertion: an existing key keeps its position and
takes the new value; a new key is appended at the end. -/
def objInsert (l : List (String × Json)) (k : String) (v : Json) :
    List (String × Json) :=
  if l.any (fun p => p.1 == k) then
    l.map (fun p => if p.1 == k then (k, v) else p)
  else l ++ [(k, v)]

mutual

/-- One JSON value at the current position (no leading whitespace), in
the order the `json` module's scanner tries alternatives: string, object,
array, `null`, `true`, `false`, number, `NaN`, `Infinity`, `-Infinity`.
Fuel only bounds nesting; `2 * length + 2` always suffices. -/
def parseValue : Nat → List Char → Option (Json × List Char)
  | 0, _ => none
  | fuel + 1, cs =>
    match cs with
    | [] => none
    | c :: rest =>
      if c = '"' then
        match parseStringBody rest [] with
        | some (s, r) => some (.str s, r)
        | none => none
      else if c = '\x7b' then parseObjBody fuel (skipWs rest)
      else if c = '[' then parseArrBody fuel (skipWs rest)
      else
        match stripLit ['n','u','l','l'] cs with
        | some r => some (.null, r)
        | none =>
        match stripLit ['t','r','u','e'] cs with
        | some r => some (.bool true, r)
        | none =>
        match stripLit ['f','a','l','s','e'] cs with
        | some r => some (.bool false, r)
        | none =>
        match parseNumber cs with
        | some vr => some vr
        | none =>
        match stripLit ['N','a','N'] cs with
        | some r => some (.nan, r)
        | none =>
        match stripLit ['I','n','f','i','n','i','t','y'] cs with
        | some r => some (.inf false, r)
        | none =>
        match stripLit ['-','I','n','f','i','n','i','t','y'] cs with
        | some r => some (.inf true, r)
        | none => none

/-- Object body after the opening brace and whitespace: either an
immediate closing brace (empty object) or a first member. -/
def parseObjBody : Nat → List Char → Option (Json × List Char)
  | 0, _ => none
  | fuel + 1, cs =>
    match cs with
    | '\x7d' :: r => some (.obj [], r)
    | _ => parseMembers fuel cs []

/-- Members of an object, expecting a quoted key at the head; after each
value, a comma continues and a closing brace ends the object. -/
def parseMembers : Nat → List Char → List (String × Json) →
    Option (Json × List Char)
  | 0, _, _ => none
  | fuel + 1, cs, acc =>
    match cs with
    | '"' :: r =>
      match parseStringBody r [] with
      | some (k, r2) =>
        match skipWs r2 with
        | ':' :: r3 =>
          match parseValue fuel (skipWs r3) with
          | some (v, r4) =>
            match skipWs r4 with
            | '\x7d' :: r5 => some (.obj (objInsert acc k v), r5)
            | ',' :: r5 => parseMembers fuel (skipWs r5) (objInsert acc k v)
            | _ => none
          | none => none
        | _ => none
      | none => none
    | _ => none

/-- Array body after the opening bracket and whitespace. -/
def parseArrBody : Nat → List Char → Option (Json × List Char)
  | 0, _ => none
  | fuel + 1, cs =>
    match cs with
    | ']' :: r => some (.arr [], r)
    | _ =>
      match parseValue fuel cs with
      | some (v, r) => parseArrRest fuel (skipWs r) [v]
      | none => none

/-- Continuation of an array after an element (accumulator reversed). -/
def parseArrRest : Nat → List Char → List Json → Option (Json × List Char)
  | 0, _, _ => none
  | fuel + 1, cs, acc =>
    match cs with
    | ']' :: r => some (.arr acc.reverse, r)
    | ',' :: r =>
      match parseValue fuel (skipWs r) with
      | some (v, r2) => parseArrRest fuel (skipWs r2) (v :: acc)
      | none => none
    | _ => none

end

/-- Python `json.loads` on a character list: skip leading whitespace,
read one value, allow trailing whitespace, and require the whole input
to be consumed. -/
def jsonLoadsL (cs : List Char) : Option Json :=
  match parseValue (2 * cs.length + 2) (skipWs cs) with
  | some (v, rest) => if skipWs rest = [] then some v else none
  | none => none

/-- Python `json.loads` on a string. -/
def jsonLoads (s : String) : Option Json := jsonLoadsL s.data

example : jsonLoads ("\x7b\"a\":1\x7d") = some (.obj [("a", .num 1 0)]) := rfl

example : jsonLoads (" \x7b \"a\" : [1, -2.5, true, null] \x7d ") =
    some (.obj [("a", .arr [.num 1 0, .num (-25) (-1), .bool true, .null])]) := rfl

example : jsonLoads ("\x7b") = none := rfl

example : jsonLoads ("") = none := rfl

example : jsonLoads ("\x7b\"a\":1\x7d\x7b\"b\":2\x7d") = none := rfl

/-! The JSON extractor (`extract_first_json` in `src/app.py`). -/

/-- Characters removed by Python `str.strip()`, i.e. the `str.isspace`
characters (the further Unicode space-category codepoints are not
modelled; none appears in the repository's data). -/
def isPyWs (c : Char) : Bool :=
  c = ' ' || c = '\t' || c = '\n' || c = '\r' || c = '\x0b' || c = '\x0c' ||
  c = '\x1c' || c = '\x1d' || c = '\x1e' || c = '\x1f' || c = '\x85'

/-- Python `str.strip()`: drop leading and trailing whitespace. -/
def pyStrip (cs : List Char) : List Char :=
  ((cs.dropWhile isPyWs).reverse.dropWhile isPyWs).reverse

/-- Python `str.strip()` on a string. -/
def pyStripS (s : String) : String := ⟨pyStrip s.data⟩

/-- Index of the first opening brace, Python `text.find("\x7b")` with
`none` for `-1`. -/
def firstBrace : List Char → Option Nat
  | [] => none
  | c :: cs => if c = '\x7b' then some 0 else (firstBrace cs).map (· + 1)

/-- Python `text.replace(pat, "", 1)`: remove the first occurrence of
`pat`; the text is unchanged when `pat` does not occur, and an empty
pattern removes nothing, as in Python. -/
def removeFirst : List Char → List Char → List Char
  | cs, [] => cs
  | [], _ => []
  | c :: cs, pat =>
    if pat.isPrefixOf (c :: cs) then (c :: cs).drop pat.length
    else c :: removeFirst cs pat

/-- Length of the longest leading run of characters that are neither
brace. -/
def scanNonBrace (cs : List Char) : Nat :=
  (cs.takeWhile (fun c => ¬ (c = '\x7b' ∨ c = '\x7d'))).length

/-- Length of the shortest match of `(?:[^\x7b\x7d]|\x7b[^\x7b\x7d]*\x7d)*\x7d`
at the head of `cs` (the fallback regex of `extract_first_json`, after
its outer opening brace).  The regex engine's greedy repetition with
backtracking reduces to this linear scan: the repetition can only stop
at a brace or at the end, a final `\x7d` can only match at a closing
brace, and every backtracking re-entry point holds a non-`\x7d`
character, so backtracking never produces a match the greedy scan
misses. -/
def looseTail : Nat → List Char → Option Nat
  | 0, _ => none
  | _ + 1, [] => none
  | fuel + 1, c :: rest =>
    if c = '\x7d' then some 1
    else if c = '\x7b' then
      match rest.drop (scanNonBrace rest) with
      | d :: rest2 =>
        if d = '\x7d' then
          (looseTail fuel rest2).map (fun n => n + scanNonBrace rest + 2)
        else none
      | [] => none
    else (looseTail fuel rest).map (· + 1)

/-- Match of the fallback regex
`(\x7b(?:[^\x7b\x7d]|\x7b[^\x7b\x7d]*\x7d)*\x7d)` anchored at the head
of `cs`: the matched text, when it matches. -/
def looseMatchAt (cs : List Char) : Option (List Char) :=
  match cs with
  | '\x7b' :: rest => (looseTail cs.length rest).map (fun n => cs.take (n + 1))
  | _ => none

/-- Python `re.search` of the fallback regex: the leftmost match. -/
def regexSearch : List Char → Option (List Char)
  | [] => none
  | c :: rest =>
    match looseMatchAt (c :: rest) with
    | some m => some m
    | none => regexSearch rest

/-- The progressive-widening loop of `extract_first_json`: for each
`end` in `range(start + 1, len(text))`, try
`json.loads(text[start:end + 1])` and, on the first success, return the
parse together with `text[end + 1:].strip()`.  Writing `k` for the
candidate length `end + 1 - start`, the loop runs `k` over
`2, …, len - start`. -/
def widenLoop (cs : List Char) (start : Nat) : Option (Json × List Char) :=
  (List.range' 2 (cs.length - start - 1)).findSome? (fun k =>
    match jsonLoadsL ((cs.drop start).take k) with
    | some v => some (v, pyStrip (cs.drop (start + k)))
    | none => none)

/-- Source `extract_first_json` on a character list: locate the first
opening brace (no brace: not found, original text as leftover); widen a
candidate from there until a prefix parses (success: parse plus the text
after the span, stripped); otherwise fall back to the loose regex and,
if its match parses, return it with the leftover computed by removing
the first occurrence of the matched text; otherwise not found with the
original text as leftover. -/
def extract_first_jsonL (cs : List Char) : Option Json × List Char :=
  match firstBrace cs with
  | none => (none, cs)
  | some start =>
    match widenLoop cs start with
    | some (v, rem) => (some v, rem)
    | none =>
      match regexSearch cs with
      | some raw =>
        match jsonLoadsL raw with
        | some v => (some v, pyStrip (removeFirst cs raw))
        | none => (none, cs)
      | none => (none, cs)

/-- Source `extract_first_json` on a string. -/
def extract_first_json (s : String) : Option Json × String :=
  match extract_first_jsonL s.data with
  | (j, r) => (j, ⟨r⟩)

example : extract_first_json ("\x7b\"a\":1\x7d\x7b\"b\":2\x7d") =
    (some (.obj [("a", .num 1 0)]), "\x7b\"b\":2\x7d") := rfl

example : extract_first_json ("no braces here") = (none, "no braces here") := rfl

example : extract_first_json ("") = (none, "") := rfl

example :
    extract_first_json
      ("Here is the result: \x7b\"transcript\":\"hi\",\"summary\":\"ok\",\"personalized_nutrition\":\x7b\x7d\x7d done") =
    (some (.obj [("transcript", .str ("hi")), ("summary", .str ("ok")),
      ("personalized_nutrition", .obj [])]), "done") := rfl

example : extract_first_json ("\x7boops \x7b\"a\":1\x7d") =
    (some (.obj [("a", .num 1 0)]), "\x7boops") := rfl

example : extract_first_json ("\x7ba\x7d") = (none, "\x7ba\x7d") := rfl

/-! Structural lemmas about the extractor. -/

theorem firstBrace_some (cs : List Char) (i : Nat)
    (h : firstBrace cs = some i) :
    ∃ l r, cs = l ++ '\x7b' :: r ∧ l.length = i := by
  induction cs generalizing i with
  | nil => simp [firstBrace] at h
  | cons c cs ih =>
    by_cases hc : c = '\x7b'
    · subst hc
      simp [firstBrace] at h
      exact ⟨[], cs, by simp, by simp [h]⟩
    · simp [firstBrace, hc] at h
      obtain ⟨j, hj, hji⟩ := h
      obtain ⟨l, r, hlr, hl⟩ := ih j hj
      exact ⟨c :: l, r, by simp [hlr], by simp [hl, hji]⟩

theorem firstBrace_eq_none (cs : List Char) :
    firstBrace cs = none ↔ '\x7b' ∉ cs := by
  induction cs with
  | nil => simp [firstBrace]
  | cons c cs ih =>
    by_cases hc : c = '\x7b'
    · subst hc; simp [firstBrace]
    · simp [firstBrace, hc, ih, Ne.symm hc]

theorem firstBrace_append (l r : List Char) (h : '\x7b' ∉ l) :
    firstBrace (l ++ r) = (firstBrace r).map (· + l.length) := by
  induction l with
  | nil => rcases h : firstBrace r with _ | i <;> simp [h]
  | cons c cs ih =>
    have hc : ¬ c = '\x7b' := fun hh => h (hh ▸ List.mem_cons_self c cs)
    have hcs : '\x7b' ∉ cs := fun hh => h (List.mem_cons_of_mem c hh)
    rw [List.cons_append]
    simp only [firstBrace, hc, if_false, ih hcs]
    cases firstBrace r
    · simp
    · simp
      omega

theorem findSome_range'_min {α : Type} (f : Nat → Option α) (res : α)
    (a n k0 : Nat) (h1 : a ≤ k0) (h2 : k0 < a + n) (h3 : f k0 = some res)
    (h4 : ∀ k, a ≤ k → k < k0 → f k = none) :
    (List.range' a n).findSome? f = some res := by
  induction n generalizing a with
  | zero => omega
  | succ n ih =>
    rw [List.range'_succ, List.findSome?_cons]
    by_cases ha : a = k0
    · subst ha; rw [h3]
    · rw [h4 a le_rfl (by omega)]
      exact ih (a + 1) (by omega) (by omega)
        (fun k hk hk' => h4 k (by omega) hk')

/-- Characterization of the widening pass: when a least-length candidate
prefix (of length `k0`) starting at the first brace parses, the
extractor returns its parse together with the stripped text after the
span — regardless of what comes later in the text. -/
theorem extract_widen_spec (cs : List Char) (start k0 : Nat) (v : Json)
    (hb : firstBrace cs = some start)
    (hk : k0 ≤ cs.length - start)
    (hv : jsonLoadsL ((cs.drop start).take k0) = some v)
    (hmin : ∀ k, k < k0 → jsonLoadsL ((cs.drop start).take k) = none) :
    extract_first_jsonL cs = (some v, pyStrip (cs.drop (start + k0))) := by
  obtain ⟨l, r, hlr, hl⟩ := firstBrace_some cs start hb
  have hlen : cs.length = start + 1 + r.length := by
    subst hlr
    rw [List.length_append, List.length_cons, ← hl]
    omega
  have hdrop : cs.drop start = '\x7b' :: r := by
    subst hlr
    rw [← hl, List.drop_left]
  have hk2 : 2 ≤ k0 := by
    by_contra hlt
    interval_cases k0
    · rw [List.take_zero] at hv
      exact Option.noConfusion ((rfl : jsonLoadsL [] = none) ▸ hv)
    · rw [hdrop] at hv
      exact Option.noConfusion ((rfl : jsonLoadsL ['\x7b'] = none) ▸ hv)
  have hwl : widenLoop cs start = some (v, pyStrip (cs.drop (start + k0))) := by
    unfold widenLoop
    refine findSome_range'_min _ _ 2 (cs.length - start - 1) k0 hk2 (by omega)
      ?_ ?_
    · rw [hv]
    · intro k _ hk'
      rw [hmin k hk']
  simp only [extract_first_jsonL, hb, hwl]

/-- C1: for every input containing an opening brace, if some prefix of
the text starting at the first brace parses as strict JSON, the
extractor returns the parse of the shortest such prefix together with a
leftover equal to the text after that span, stripped of surrounding
whitespace.  (`hmin` states that `k0` is the least length of a parsing
prefix; prefixes of length 0 and 1 never parse, so this coincides with
the first success of the source's widening loop.) -/
theorem c1_shortest_prefix_extraction (s : String) (start k0 : Nat) (v : Json)
    (hb : firstBrace s.data = some start)
    (hk : k0 ≤ s.data.length - start)
    (hv : jsonLoadsL ((s.data.drop start).take k0) = some v)
    (hmin : ∀ k, k < k0 → jsonLoadsL ((s.data.drop start).take k) = none) :
    extract_first_json s = (some v, ⟨pyStrip (s.data.drop (start + k0))⟩) := by
  unfold extract_first_json
  rw [extract_widen_spec s.data start k0 v hb hk hv hmin]

/-- Witness for C1 at the spec's Scenario 2: two concatenated JSON
objects; only the first is returned, the second is the leftover. -/
theorem c1_witness :
    extract_first_json ("\x7b\"a\":1\x7d\x7b\"b\":2\x7d") =
      (some (Json.obj [("a", Json.num 1 0)]), "\x7b\"b\":2\x7d") := by
  have hmin : ∀ k, k < 7 →
      jsonLoadsL (((String.data ("\x7b\"a\":1\x7d\x7b\"b\":2\x7d")).drop 0).take k) =
        none := by
    have h : ∀ k, k < 7 →
        (jsonLoadsL (((String.data ("\x7b\"a\":1\x7d\x7b\"b\":2\x7d")).drop 0).take k)).isNone
          = true := by decide
    exact fun k hk => Option.isNone_iff_eq_none.mp (h k hk)
  exact (c1_shortest_prefix_extraction ("\x7b\"a\":1\x7d\x7b\"b\":2\x7d") 0 7
    (Json.obj [("a", Json.num 1 0)]) rfl (by decide) rfl hmin).trans (by rfl)

theorem extract_fst_none (cs : List Char) :
    (extract_first_jsonL cs).1 = none → (extract_first_jsonL cs).2 = cs := by
  unfold extract_first_jsonL
  split
  · exact fun _ => rfl
  · split
    · exact fun h => absurd h (by simp)
    · split
      · split
        · exact fun h => absurd h (by simp)
        · exact fun _ => rfl
      · exact fun _ => rfl

/-- C3: whenever extraction fails, the extractor signals not-found and
the leftover is exactly the original input, unchanged; in particular any
input without an opening brace (e.g. the empty string) fails this way. -/
theorem c3_failure_leftover (s : String) :
    ('\x7b' ∉ s.data → extract_first_json s = (none, s)) ∧
    ((extract_first_json s).1 = none → (extract_first_json s).2 = s) := by
  constructor
  · intro h
    have hb : firstBrace s.data = none := (firstBrace_eq_none s.data).mpr h
    unfold extract_first_json extract_first_jsonL
    rw [hb]
  · intro h
    have h2 := extract_fst_none s.data h
    show String.mk (extract_first_jsonL s.data).2 = s
    rw [h2]

/-- Witness for C3: a braceless input is returned unchanged. -/
theorem c3_witness :
    extract_first_json ("no json here") = (none, "no json here") :=
  (c3_failure_leftover ("no json here")).1 (by decide)

/-- C4: when the input has a brace but no prefix from the first brace
parses, the extractor falls back to the loose bracket-matching regex
(`looseMatchAt`/`regexSearch`: outer brace, a run of non-brace
characters or one balanced inner brace span, closing brace); if the
leftmost match parses it is returned with the leftover obtained by
removing the first occurrence of the matched text (a content-based
replace) and stripping; if it does not parse, extraction signals
not-found with the input unchanged. -/
theorem c4_fallback (s : String) (start : Nat) (raw : List Char)
    (hb : firstBrace s.data = some start)
    (hw : widenLoop s.data start = none)
    (hr : regexSearch s.data = some raw) :
    extract_first_json s =
      (match jsonLoadsL raw with
       | some v => (some v, (⟨pyStrip (removeFirst s.data raw)⟩ : String))
       | none => (none, s)) := by
  simp only [extract_first_json, extract_first_jsonL, hb, hw, hr]
  cases jsonLoadsL raw <;> rfl

/-- C2 counterexample: on the spec's Scenario 1 input the extractor
returns only the text after the object as leftover (the prose before the
first brace is dropped by the widening pass, which returns
`text[end + 1:].strip()`), so the leftover is "done", not the whole
trimmed surrounding text "Here is the result:  done". -/
theorem c2_counterexample :
    (extract_first_json
      ("Here is the result: \x7b\"transcript\":\"hi\",\"summary\":\"ok\",\"personalized_nutrition\":\x7b\x7d\x7d done")).2 =
      "done" ∧ ("done" : String) ≠ "Here is the result:  done" :=
  ⟨rfl, by decide⟩

/-- C2 amended: for an input made of prose, one JSON object (no shorter
prefix of which parses) and further prose, with no brace characters in
the surrounding prose, the extractor returns that exact object together
with a leftover equal to the text after the object only, trimmed of
whitespace; the prose before the first brace is discarded. -/
theorem c2_amended_leftover (pre objStr post : String) (v : Json)
    (hpre : ∀ c ∈ pre.data, c ≠ '\x7b' ∧ c ≠ '\x7d')
    (_hpost : ∀ c ∈ post.data, c ≠ '\x7b' ∧ c ≠ '\x7d')
    (hobj : objStr.data.head? = some '\x7b')
    (hv : jsonLoads objStr = some v)
    (hmin : ∀ k, k < objStr.data.length →
      jsonLoadsL (objStr.data.take k) = none) :
    extract_first_json (pre ++ objStr ++ post) =
      (some v, ⟨pyStrip post.data⟩) := by
  obtain ⟨t, ht⟩ : ∃ t, objStr.data = '\x7b' :: t := by
    rcases hd : objStr.data with _ | ⟨c, t⟩
    · rw [hd] at hobj; simp at hobj
    · rw [hd] at hobj
      simp only [List.head?_cons, Option.some_inj] at hobj
      exact ⟨t, by rw [hobj]⟩
  have hdata : (pre ++ objStr ++ post).data =
      pre.data ++ (objStr.data ++ post.data) := by
    simp [List.append_assoc]
  have hpre' : '\x7b' ∉ pre.data := fun hm => ((hpre _ hm).1 rfl)
  have hb : firstBrace (pre ++ objStr ++ post).data =
      some pre.data.length := by
    rw [hdata, firstBrace_append _ _ hpre', ht, List.cons_append]
    simp [firstBrace]
  have hdrop : (pre ++ objStr ++ post).data.drop pre.data.length =
      objStr.data ++ post.data := by
    rw [hdata, List.drop_left]
  have hlen : objStr.data.length ≤
      (pre ++ objStr ++ post).data.length - pre.data.length := by
    rw [hdata]
    simp
  have hv' : jsonLoadsL
      (((pre ++ objStr ++ post).data.drop pre.data.length).take
        objStr.data.length) = some v := by
    rw [hdrop, List.take_left]
    exact hv
  have hmin' : ∀ k, k < objStr.data.length →
      jsonLoadsL (((pre ++ objStr ++ post).data.drop pre.data.length).take k) =
        none := by
    intro k hk
    rw [hdrop, List.take_append_of_le_length (le_of_lt hk)]
    exact hmin k hk
  have hdrop2 : (pre ++ objStr ++ post).data.drop
      (pre.data.length + objStr.data.length) = post.data := by
    rw [hdata, ← List.append_assoc, ← List.length_append, List.drop_left]
  have hmain := extract_widen_spec (pre ++ objStr ++ post).data
    pre.data.length objStr.data.length v hb hlen hv' hmin'
  unfold extract_first_json
  rw [hmain, hdrop2]

/-- Witness for the amended C2 at the spec's Scenario 1 input: the
object is returned and the leftover is "done". -/
theorem c2_amended_witness :
    extract_first_json (("Here is the result: ") ++
        ("\x7b\"transcript\":\"hi\",\"summary\":\"ok\",\"personalized_nutrition\":\x7b\x7d\x7d") ++
        (" done")) =
      (some (Json.obj [("transcript", Json.str ("hi")),
        ("summary", Json.str ("ok")), ("personalized_nutrition", Json.obj [])]),
       "done") := by
  have hmin : ∀ k,
      k < (String.data ("\x7b\"transcript\":\"hi\",\"summary\":\"ok\",\"personalized_nutrition\":\x7b\x7d\x7d")).length →
      jsonLoadsL ((String.data ("\x7b\"transcript\":\"hi\",\"summary\":\"ok\",\"personalized_nutrition\":\x7b\x7d\x7d")).take k) =
        none := by
    have h : ∀ k, k < 62 →
        (jsonLoadsL ((String.data ("\x7b\"transcript\":\"hi\",\"summary\":\"ok\",\"personalized_nutrition\":\x7b\x7d\x7d")).take k)).isNone
          = true := by decide
    have hl : (String.data ("\x7b\"transcript\":\"hi\",\"summary\":\"ok\",\"personalized_nutrition\":\x7b\x7d\x7d")).length = 62 := rfl
    intro k hk
    rw [hl] at hk
    exact Option.isNone_iff_eq_none.mp (h k hk)
  exact (c2_amended_leftover ("Here is the result: ")
    ("\x7b\"transcript\":\"hi\",\"summary\":\"ok\",\"personalized_nutrition\":\x7b\x7d\x7d")
    (" done")
    (Json.obj [("transcript", Json.str ("hi")), ("summary", Json.str ("ok")),
      ("personalized_nutrition", Json.obj [])])
    (by decide) (by decide) rfl rfl hmin).trans (by rfl)

/-- Witness for C4: the widening pass fails (the text from the first
brace never parses), the regex matches a later balanced span, it parses,
and the leftover is the input with that span deleted, stripped. -/
theorem c4_witness :
    extract_first_json ("\x7boops \x7b\"a\":1\x7d") =
      (some (Json.obj [("a", Json.num 1 0)]), "\x7boops") := by
  exact (c4_fallback ("\x7boops \x7b\"a\":1\x7d") 0
    (String.data ("\x7b\"a\":1\x7d")) rfl rfl rfl).trans (by rfl)

/-! The unstructured-text PDF renderer (`create_pdf` in `src/main.py`). -/

/-- Python `text.split(sep)` with a one-character separator: split on
every occurrence, keeping empty pieces (`"".split(sep)` is `[""]`). -/
def splitOnCharAux (sep : Char) : List Char → List Char → List (List Char)
  | [], acc => [acc.reverse]
  | c :: cs, acc =>
    if c = sep then acc.reverse :: splitOnCharAux sep cs []
    else splitOnCharAux sep cs (c :: acc)

/-- Python `text.split(sep)` for a one-character separator. -/
def splitOnChar (sep : Char) (cs : List Char) : List (List Char) :=
  splitOnCharAux sep cs []

/-- The drawing loop of `create_pdf` in `src/main.py`: `acc` holds the
finished pages and `cur` the lines already drawn on the current page;
the cursor `y` starts at `height - 50 = 742` (US letter is 792 points
tall); before drawing each line, if `y < 50` the page is emitted and the
cursor reset to the top margin; each drawn line moves the cursor down by
`line_height = 14`.  `reportlab`'s `save` emits the final page when
anything was drawn on it. -/
def drawLinesAux : List (List Char) → Int → List (List Char) →
    List (List (List Char)) → List (List (List Char))
  | [], _, cur, acc => if cur.isEmpty then acc else acc ++ [cur]
  | l :: ls, y, cur, acc =>
    if y < 50 then drawLinesAux ls (742 - 14) [l] (acc ++ [cur])
    else drawLinesAux ls (y - 14) (cur ++ [l]) acc

/-- Source `create_pdf`: split the text on newline characters only and
draw the lines with the page-break rule above; the result is the list of
pages, each a list of verbatim lines. -/
def create_pdf (text : String) : List (List (List Char)) :=
  drawLinesAux (splitOnChar '\n' text.data) 742 [] []

theorem drawLinesAux_flatten (ls : List (List Char)) :
    ∀ (y : Int) (cur : List (List Char)) (acc : List (List (List Char))),
      (drawLinesAux ls y cur acc).flatten = acc.flatten ++ cur ++ ls := by
  induction ls with
  | nil =>
    intro y cur acc
    simp only [drawLinesAux]
    split
    · next h => simp [List.isEmpty_iff.mp h]
    · simp
  | cons l ls ih =>
    intro y cur acc
    simp only [drawLinesAux]
    split
    · rw [ih]
      simp
    · rw [ih]
      simp

theorem drawLinesAux_length (ls : List (List Char)) :
    ∀ (k : Nat) (cur : List (List Char)) (acc : List (List (List Char))),
      cur.length = k → k ≤ 50 →
      (drawLinesAux ls (742 - 14 * (k : Int)) cur acc).length =
        acc.length + (k + ls.length + 49) / 50 := by
  induction ls with
  | nil =>
    intro k cur acc hk hle
    simp only [drawLinesAux, List.length_nil]
    split
    · next h =>
      have : k = 0 := by rw [← hk, List.isEmpty_iff.mp h]; rfl
      subst this
      omega
    · next h =>
      have hk1 : 1 ≤ k := by
        rcases Nat.eq_zero_or_pos k with h0 | h1
        · exfalso
          apply h
          rw [List.isEmpty_iff, ← List.length_eq_zero, hk, h0]
        · exact h1
      simp only [List.length_append, List.length_cons, List.length_nil]
      omega
  | cons l ls ih =>
    intro k cur acc hk hle
    simp only [drawLinesAux]
    split
    · next hy =>
      have hk50 : k = 50 := by omega
      subst hk50
      have h14 : (742 : Int) - 14 = 742 - 14 * ((1 : Nat) : Int) := by norm_num
      rw [h14, ih 1 [l] (acc ++ [cur]) rfl (by norm_num)]
      simp only [List.length_append, List.length_cons, List.length_nil]
      omega
    · next hy =>
      have hk50 : k < 50 := by omega
      have h14 : (742 : Int) - 14 * (k : Int) - 14 =
          742 - 14 * ((k + 1 : Nat) : Int) := by push_cast; ring
      rw [h14, ih (k + 1) (cur ++ [l]) acc (by simp [hk]) (by omega)]
      simp only [List.length_cons]
      omega

/-- C5: the unstructured-text renderer splits only on existing newlines;
with its constants (top cursor 742, bottom threshold 50, line height 14)
a page holds exactly `K = 50` lines, the document has exactly
`ceil(N / 50)` pages for `N` input lines (`split` always yields at least
one line), and no line is ever split across pages: concatenating the
pages gives back exactly the input lines, in order. -/
theorem c5_pagination (text : String) :
    (create_pdf text).length =
      ((splitOnChar '\n' text.data).length + 49) / 50 ∧
    (create_pdf text).flatten = splitOnChar '\n' text.data := by
  constructor
  · have h := drawLinesAux_length (splitOnChar '\n' text.data) 0 [] [] rfl
      (by norm_num)
    simpa [create_pdf] using h
  · have h := drawLinesAux_flatten (splitOnChar '\n' text.data) 742 [] []
    simpa [create_pdf] using h

/-! The structured-report PDF renderer (`create_pdf_from_json` in
`src/app.py`). -/

/-- Association-list lookup, Python `dict.get` on the underlying pairs. -/
def lookupKey (fs : List (String × Json)) (k : String) : Option Json :=
  (fs.find? (fun p => p.1 == k)).map (fun p => p.2)

/-- Python `dict.get` on a JSON object (callers establish dict-ness
before calling, since Python raises on `.get` of a non-dict). -/
def jget : Json → String → Option Json
  | .obj fs, k => lookupKey fs k
  | _, _ => none

/-- Python truthiness (`bool(x)`) of a JSON value. -/
def jTruthy : Json → Bool
  | .null => false
  | .bool b => b
  | .num m _ => decide (m ≠ 0)
  | .nan => true
  | .inf _ => true
  | .str s => !s.isEmpty
  | .arr l => !l.isEmpty
  | .obj fs => !fs.isEmpty

/-- Python `", ".join`-style concatenation. -/
def joinSep (sep : String) : List String → String
  | [] => ""
  | [x] => x
  | x :: xs => x ++ sep ++ joinSep sep xs

/-- Decimal rendering of a parsed JSON number for f-string
interpolation.  Python prints the shortest-roundtrip repr of the binary
float; this decimal form only approximates that spelling (no claim
depends on the exact digits). -/
def pyStrNum (m e : Int) : String :=
  if 0 ≤ e then toString (m * (10 : Int) ^ e.toNat)
  else
    let d := (-e).toNat
    let n := m.natAbs
    let fracStr := Nat.toDigits 10 (n % 10 ^ d)
    (if m < 0 then "-" else "") ++ toString (n / 10 ^ d) ++ "." ++
      ⟨List.replicate (d - fracStr.length) '0' ++ fracStr⟩

mutual

/-- Python `str()` as used in the renderer's f-strings.  Strings pass
through and scalars use their Python spellings; the `repr`-style
container text is only approximated (no claim depends on it). -/
def pyStr : Json → String
  | .null => "None"
  | .bool true => "True"
  | .bool false => "False"
  | .nan => "nan"
  | .inf true => "-inf"
  | .inf false => "inf"
  | .num m e => pyStrNum m e
  | .str s => s
  | .arr l => "[" ++ pyStrElems l ++ "]"
  | .obj fs => "\x7b" ++ pyStrFields fs ++ "\x7d"

/-- Comma-separated renderings of list elements. -/
def pyStrElems : List Json → String
  | [] => ""
  | [x] => pyStr x
  | x :: xs => pyStr x ++ ", " ++ pyStrElems xs

/-- Comma-separated renderings of dict entries. -/
def pyStrFields : List (String × Json) → String
  | [] => ""
  | [(k, v)] => "\x27" ++ k ++ "\x27: " ++ pyStr v
  | (k, v) :: xs => "\x27" ++ k ++ "\x27: " ++ pyStr v ++ ", " ++ pyStrFields xs

end

/-- Round `n / 10 ^ d` to the nearest integer, ties to even. -/
def roundHalfEven10 (n d : Nat) : Nat :=
  let p := 10 ^ d
  let q := n / p
  let r := n % p
  if 2 * r < p then q
  else if p < 2 * r then q + 1
  else if q % 2 = 0 then q else q + 1

/-- Two-decimal fixed-point rendering of a parsed JSON number,
Python `format(x, '.2f')`.  Rounding is half-even on the decimal value;
the detour through binary floating point that CPython takes is not
modelled (no claim depends on the rounded digits). -/
def fmt2f (m e : Int) : String :=
  let r : Nat :=
    if 0 ≤ e + 2 then m.natAbs * 10 ^ (e + 2).toNat
    else roundHalfEven10 m.natAbs (-(e + 2)).toNat
  (if m < 0 then "-" else "") ++ toString (r / 100) ++ "." ++
    (if r % 100 < 10 then "0" else "") ++ toString (r % 100)

/-- Python `format(x, '.2f')` on the values that do not raise: numbers,
bools (treated as 0/1), `nan` and the infinities; `none` models the
`TypeError`/`ValueError` raised on anything else. -/
def fmtConf2 : Json → Option String
  | .num m e => some (fmt2f m e)
  | .bool b => some (if b then "1.00" else "0.00")
  | .nan => some ("nan")
  | .inf b => some (if b then "-inf" else "inf")
  | _ => none

/-- Line-boundary characters of Python `str.splitlines()`. -/
def isLineBreak (c : Char) : Bool :=
  c = '\n' || c = '\r' || c = '\x0b' || c = '\x0c' ||
  c = '\x1c' || c = '\x1d' || c = '\x1e' || c = '\x85' ||
  c = '\u2028' || c = '\u2029'

/-- Accumulating pass of `str.splitlines()`: `\r\n` counts as one
boundary, a terminal boundary adds no empty final line, and the empty
string has no lines at all. -/
def splitlinesAux : List Char → List Char → List (List Char)
  | [], acc => if acc.isEmpty then [] else [acc.reverse]
  | '\r' :: '\n' :: cs, acc => acc.reverse :: splitlinesAux cs []
  | c :: cs, acc =>
    if isLineBreak c then acc.reverse :: splitlinesAux cs []
    else splitlinesAux cs (c :: acc)

/-- Python `str.splitlines()`. -/
def pySplitlines (s : String) : List String :=
  (splitlinesAux s.data []).map (fun l => ⟨l⟩)

/-- The summary text drawn line by line:
`(j.get("summary") or "").splitlines()` — a falsy value becomes the
empty string, and a truthy non-string raises (`none`). -/
def summaryText (j : Json) : Option String :=
  match jget j ("summary") with
  | none => some ""
  | some v =>
    if jTruthy v then
      match v with
      | .str s => some s
      | _ => none
    else some ""

/-- Shared shape of the two itemized-line builders in
`create_pdf_from_json` (the `kh` and `dh` loops differ only in the field
looked up and the f-string layout `fmt`): one formatted line per list
entry.  `none` models the exceptions Python raises (a non-iterable field
value, a non-dict item, or an unformattable confidence inside `fmt`); a
present empty string or dict iterates to nothing, and a non-empty one
raises at the first item's `.get`. -/
def itemLines (j : Json) (k : String)
    (fmt : List (String × Json) → Option String) : Option (List String) :=
  match jget j k with
  | none => some []
  | some (.arr items) => items.mapM (fun item =>
      match item with
      | .obj fs => fmt fs
      | _ => none)
  | some (.str s) => if s.isEmpty then some [] else none
  | some (.obj fs) => if fs.isEmpty then some [] else none
  | some _ => none

/-- The `kh` list of `create_pdf_from_json`: one line per entry of
`key_health_concerns`, `label — evidence (conf: x.xx)`. -/
def concernLines (j : Json) : Option (List String) :=
  itemLines j ("key_health_concerns") (fun fs =>
    (fmtConf2 ((lookupKey fs ("confidence")).getD (.num 0 0))).map
      (fun cf =>
        pyStr ((lookupKey fs ("label")).getD (.str "")) ++ " — " ++
        pyStr ((lookupKey fs ("evidence")).getD (.str "")) ++
        " (conf: " ++ cf ++ ")"))

/-- The `dh` list of `create_pdf_from_json`: one line per entry of
`dietary_habits`, `label: details (conf: x.xx)`. -/
def habitLines (j : Json) : Option (List String) :=
  itemLines j ("dietary_habits") (fun fs =>
    (fmtConf2 ((lookupKey fs ("confidence")).getD (.num 0 0))).map
      (fun cf =>
        pyStr ((lookupKey fs ("label")).getD (.str "")) ++ ": " ++
        pyStr ((lookupKey fs ("details")).getD (.str "")) ++
        " (conf: " ++ cf ++ ")"))

/-- Iterating a Python value into the content lines handed to
`draw_section` (each later concatenated after the bullet marker, which
requires a string): lists yield their elements (a non-string element
raises when drawn), strings yield their characters, dicts their keys;
anything else is not iterable.  `none` models the raised exception. -/
def iterLines : Json → Option (List String)
  | .arr items => items.mapM (fun it =>
      match it with
      | .str s => some s
      | _ => none)
  | .str s => some (s.data.map (fun c => String.singleton c))
  | .obj fs => some (fs.map (fun p => p.1))
  | _ => none

/-- The `p_lines` of the Personalized Nutrition section: calorie target
(falsy prints as N/A), macro split (each percentage defaulting to "-"),
a hydration line only when truthy, each meal-plan entry as its own line,
and a supplements line joining the entries with ", " only when truthy.
`none` models a raised exception (e.g. a present non-dict
`personalized_nutrition` or `macro_split`). -/
def pnLines (j : Json) : Option (List String) :=
  match (jget j ("personalized_nutrition")).getD (.obj []) with
  | .obj pfs =>
    let cal := (lookupKey pfs ("calorie_target")).getD .null
    let l1 := "Calorie target: " ++ (if jTruthy cal then pyStr cal else "N/A")
    let msv := (lookupKey pfs ("macro_split")).getD .null
    match (if jTruthy msv then msv else .obj []) with
    | .obj mfs =>
      let l2 := "Macro split: P " ++
        pyStr ((lookupKey mfs ("protein_pct")).getD (.str "-")) ++ "% | C " ++
        pyStr ((lookupKey mfs ("carb_pct")).getD (.str "-")) ++ "% | F " ++
        pyStr ((lookupKey mfs ("fat_pct")).getD (.str "-")) ++ "%"
      let hyd := (lookupKey pfs ("hydration_l_per_day")).getD .null
      let hydLines :=
        if jTruthy hyd then ["Hydration: " ++ pyStr hyd ++ " L/day"] else []
      match (match lookupKey pfs ("sample_meal_plan") with
             | none => some []
             | some v => iterLines v) with
      | none => none
      | some meals =>
        let supv := (lookupKey pfs ("supplements")).getD .null
        match (if jTruthy supv then
                 (iterLines supv).map
                   (fun ls => ["Supplements: " ++ joinSep (", ") ls])
               else some []) with
        | none => none
        | some supl => some ([l1, l2] ++ hydLines ++ meals ++ supl)
    | _ => none
  | _ => none

/-- One drawn line of the structured PDF, tagged by its role (the
source distinguishes them by font and x offset). -/
inductive PdfLine where
  | title : String → PdfLine
  | heading : String → PdfLine
  | body : String → PdfLine
  | bullet : String → PdfLine
  deriving DecidableEq

/-- Lines produced by one `draw_section(title, content_lines)` call: the
bold section title, then each content line prefixed by the bullet
marker.  The `y`-cursor page-break bookkeeping inside the source
function changes where lines land on pages, never which strings are
drawn, and is abstracted away here (C5 covers pagination). -/
def draw_section (title : String) (ls : List String) : List PdfLine :=
  PdfLine.heading title :: ls.map (fun l => PdfLine.bullet ("- " ++ l))

/-- The Suggested Improvements block: the section is drawn only when
the raw field value `sug = j.get("suggested_improvements", [])` is
truthy (`if sug:`), iterating it into content lines. -/
def sugSect (j : Json) : Option (List PdfLine) :=
  let sugv := (jget j ("suggested_improvements")).getD (.arr [])
  if jTruthy sugv then
    (iterLines sugv).map (draw_section ("Suggested Improvements"))
  else some []

/-- Strings drawn by `create_pdf_from_json` in `src/app.py`, in drawing
order: title, summary heading and lines, the `kh` and `dh` sections each
only when its built list is non-empty, the suggestions section only when
the raw value is truthy, then the Personalized Nutrition section
unconditionally.  `none` models an exception escaping the function (the
orchestrator then reports no PDF, and nothing reaches disk since
`canvas.save` is only called at the end); a non-dict argument raises at
the first `.get`. -/
def create_pdf_from_json (j : Json) : Option (List PdfLine) :=
  match j with
  | .obj _ =>
    (summaryText j).bind (fun summary =>
    (concernLines j).bind (fun kh =>
    (habitLines j).bind (fun dh =>
    (sugSect j).bind (fun sugLines =>
    (pnLines j).map (fun pls =>
      [PdfLine.title ("NutriFit AI - Consultation Report"),
       PdfLine.heading ("Summary:")] ++
      (pySplitlines summary).map PdfLine.body ++
      (if kh.isEmpty then []
       else draw_section ("Key Health Concerns") kh) ++
      (if dh.isEmpty then []
       else draw_section ("Dietary Habits") dh) ++
      sugLines ++
      draw_section ("Personalized Nutrition") pls)))))
  | _ => none

example : create_pdf_from_json (Json.obj [("summary", Json.str ("ok")),
    ("suggested_improvements", Json.arr [])]) =
  some [PdfLine.title ("NutriFit AI - Consultation Report"),
        PdfLine.heading ("Summary:"), PdfLine.body ("ok"),
        PdfLine.heading ("Personalized Nutrition"),
        PdfLine.bullet ("- Calorie target: N/A"),
        PdfLine.bullet ("- Macro split: P -% | C -% | F -%")] := rfl

/-! Observation functions and lemmas for the section-structure claim. -/

/-- The list stored under key `k`, empty when the key is absent. -/
def getArrD (j : Json) (k : String) : List Json :=
  match jget j k with
  | some (.arr l) => l
  | _ => []

/-- Whether the value under `k`, if present at all, is a list. -/
def arrOrAbsent (j : Json) (k : String) : Bool :=
  match jget j k with
  | none => true
  | some (.arr _) => true
  | _ => false

theorem mapM_option_length {α β : Type} (f : α → Option β) :
    ∀ (l : List α) (l2 : List β), l.mapM f = some l2 → l2.length = l.length := by
  intro l
  induction l with
  | nil =>
    intro l2 h
    have h' : ([] : List β) = l2 := Option.some_inj.mp h
    rw [← h']
    simp
  | cons a l ih =>
    intro l2 h
    rw [List.mapM_cons] at h
    rcases hfa : f a with _ | b <;> rw [hfa] at h
    · exact Option.noConfusion h
    · rcases hml : l.mapM f with _ | bs <;> rw [hml] at h
      · exact Option.noConfusion h
      · have h' : b :: bs = l2 := Option.some_inj.mp h
        rw [← h', List.length_cons, List.length_cons, ih bs hml]

theorem heading_mem_draw_section (t t' : String) (ls : List String) :
    PdfLine.heading t ∈ draw_section t' ls ↔ t = t' := by
  simp [draw_section]

theorem heading_mem_ite_section (t t' : String) (c : Bool)
    (ls : List String) :
    (PdfLine.heading t ∈
      (if c = true then ([] : List PdfLine) else draw_section t' ls)) ↔
      (c = false ∧ t = t') := by
  rcases c <;> simp [heading_mem_draw_section]

theorem itemLines_nil_iff (j : Json) (k : String)
    (fmt : List (String × Json) → Option String) (ls : List String)
    (ha : arrOrAbsent j k = true) (h : itemLines j k fmt = some ls) :
    ls = [] ↔ getArrD j k = [] := by
  revert ha h
  unfold arrOrAbsent itemLines getArrD
  rcases hg : jget j k with _ | v
  · intro _ h
    have h' : ([] : List String) = ls := Option.some_inj.mp h
    rw [← h']
    exact ⟨fun _ => rfl, fun _ => rfl⟩
  · rcases v with _ | b | ⟨m, e⟩ | _ | b | s | items | fs <;> intro ha h <;>
      try exact absurd (show false = true from ha) (by simp)
    · have h2 : items.mapM (fun item =>
          match item with
          | Json.obj fs => fmt fs
          | _ => none) = some ls := h
      have hlen := mapM_option_length _ items ls h2
      show ls = [] ↔ items = []
      constructor
      · intro he
        apply List.length_eq_zero.mp
        rw [← hlen, he]
        rfl
      · intro he
        apply List.length_eq_zero.mp
        rw [hlen, he]
        rfl

theorem sugSect_spec (j : Json) (ls : List PdfLine)
    (ha : arrOrAbsent j ("suggested_improvements") = true)
    (h : sugSect j = some ls) :
    (PdfLine.heading ("Suggested Improvements") ∈ ls ↔
      getArrD j ("suggested_improvements") ≠ []) ∧
    (∀ t, PdfLine.heading t ∈ ls → t = "Suggested Improvements") := by
  revert ha h
  unfold arrOrAbsent sugSect getArrD
  rcases hg : jget j ("suggested_improvements") with _ | v
  · intro _ h
    have h' : ([] : List PdfLine) = ls := Option.some_inj.mp h
    rw [← h']
    simp
  · rcases v with _ | b | ⟨m, e⟩ | _ | b | s | items | fs <;> intro ha h <;>
      try exact absurd (show false = true from ha) (by simp)
    · show (PdfLine.heading ("Suggested Improvements") ∈ ls ↔ items ≠ []) ∧
        (∀ t, PdfLine.heading t ∈ ls → t = "Suggested Improvements")
      rcases items with _ | ⟨it, its⟩
      · have h' : ([] : List PdfLine) = ls := Option.some_inj.mp h
        rw [← h']
        simp
      · have h2 : (iterLines (Json.arr (it :: its))).map
            (draw_section ("Suggested Improvements")) = some ls := h
        rw [Option.map_eq_some'] at h2
        obtain ⟨cl, _, rfl⟩ := h2
        simp [heading_mem_draw_section]

/-- C6: for every report object the renderer accepts, and whose three
itemized-section fields are lists when present, each itemized section's
heading is drawn iff its source list is non-empty — in particular an
empty `suggested_improvements` list produces no heading at all — while
the Personalized Nutrition heading is always drawn. -/
theorem c6_sections (j : Json) (out : List PdfLine)
    (h : create_pdf_from_json j = some out)
    (hkh : arrOrAbsent j ("key_health_concerns") = true)
    (hdh : arrOrAbsent j ("dietary_habits") = true)
    (hsug : arrOrAbsent j ("suggested_improvements") = true) :
    (PdfLine.heading ("Key Health Concerns") ∈ out ↔
      getArrD j ("key_health_concerns") ≠ []) ∧
    (PdfLine.heading ("Dietary Habits") ∈ out ↔
      getArrD j ("dietary_habits") ≠ []) ∧
    (PdfLine.heading ("Suggested Improvements") ∈ out ↔
      getArrD j ("suggested_improvements") ≠ []) ∧
    PdfLine.heading ("Personalized Nutrition") ∈ out := by
  rcases j with _ | b | ⟨m, e⟩ | _ | b | s | l | fs <;>
    try exact Option.noConfusion h
  simp only [create_pdf_from_json, Option.bind_eq_some, Option.map_eq_some']
    at h
  obtain ⟨summary, hsum, kh, hkhL, dh, hdhL, sugLines, hsugL, pls, hpls,
    rfl⟩ := h
  have hkh_iff := itemLines_nil_iff _ _ _ kh hkh hkhL
  have hdh_iff := itemLines_nil_iff _ _ _ dh hdh hdhL
  have hsug_spec := sugSect_spec _ sugLines hsug hsugL
  refine ⟨?_, ?_, ?_, ?_⟩
  · constructor
    · intro hm
      simp only [List.mem_append, or_assoc] at hm
      rcases hm with hm | hm | hm | hm | hm | hm
      · exact absurd hm (by simp)
      · exact absurd hm (by simp)
      · rw [heading_mem_ite_section] at hm
        have hne : kh ≠ [] := by
          intro he
          rw [he] at hm
          simp at hm
        exact fun hh => hne (hkh_iff.mpr hh)
      · rw [heading_mem_ite_section] at hm
        exact absurd hm.2 (by decide)
      · exact absurd (hsug_spec.2 _ hm) (by decide)
      · rw [heading_mem_draw_section] at hm
        exact absurd hm (by decide)
    · intro hne
      have hkne : kh ≠ [] := fun he => hne (hkh_iff.mp he)
      have hkf : kh.isEmpty = false := by
        rcases kh with _ | ⟨a, l⟩
        · exact absurd rfl hkne
        · rfl
      simp only [List.mem_append, or_assoc]
      refine Or.inr (Or.inr (Or.inl ?_))
      rw [heading_mem_ite_section]
      exact ⟨hkf, rfl⟩
  · constructor
    · intro hm
      simp only [List.mem_append, or_assoc] at hm
      rcases hm with hm | hm | hm | hm | hm | hm
      · exact absurd hm (by simp)
      · exact absurd hm (by simp)
      · rw [heading_mem_ite_section] at hm
        exact absurd hm.2 (by decide)
      · rw [heading_mem_ite_section] at hm
        have hne : dh ≠ [] := by
          intro he
          rw [he] at hm
          simp at hm
        exact fun hh => hne (hdh_iff.mpr hh)
      · exact absurd (hsug_spec.2 _ hm) (by decide)
      · rw [heading_mem_draw_section] at hm
        exact absurd hm (by decide)
    · intro hne
      have hdne : dh ≠ [] := fun he => hne (hdh_iff.mp he)
      have hdf : dh.isEmpty = false := by
        rcases dh with _ | ⟨a, l⟩
        · exact absurd rfl hdne
        · rfl
      simp only [List.mem_append, or_assoc]
      refine Or.inr (Or.inr (Or.inr (Or.inl ?_)))
      rw [heading_mem_ite_section]
      exact ⟨hdf, rfl⟩
  · constructor
    · intro hm
      simp only [List.mem_append, or_assoc] at hm
      rcases hm with hm | hm | hm | hm | hm | hm
      · exact absurd hm (by simp)
      · exact absurd hm (by simp)
      · rw [heading_mem_ite_section] at hm
        exact absurd hm.2 (by decide)
      · rw [heading_mem_ite_section] at hm
        exact absurd hm.2 (by decide)
      · exact hsug_spec.1.mp hm
      · rw [heading_mem_draw_section] at hm
        exact absurd hm (by decide)
    · intro hne
      simp only [List.mem_append, or_assoc]
      exact Or.inr (Or.inr (Or.inr (Or.inr (Or.inl
        (hsug_spec.1.mpr hne)))))
  · simp only [List.mem_append, or_assoc]
    refine Or.inr (Or.inr (Or.inr (Or.inr (Or.inr ?_))))
    rw [heading_mem_draw_section]

/-- Witness for C6: a concrete report with one health concern, no
dietary-habit entries and an empty `suggested_improvements` list: the
Key Health Concerns heading is drawn, the Suggested Improvements heading
is not, and Personalized Nutrition is. -/
theorem c6_witness :
    (PdfLine.heading ("Key Health Concerns") ∈
      (create_pdf_from_json (Json.obj [("summary", Json.str ("ok")),
        ("key_health_concerns", Json.arr [Json.obj [("label", Json.str ("x")),
          ("evidence", Json.str ("e")), ("confidence", Json.num 9 (-1))]]),
        ("suggested_improvements", Json.arr [])])).getD []) ∧
    (PdfLine.heading ("Suggested Improvements") ∉
      (create_pdf_from_json (Json.obj [("summary", Json.str ("ok")),
        ("key_health_concerns", Json.arr [Json.obj [("label", Json.str ("x")),
          ("evidence", Json.str ("e")), ("confidence", Json.num 9 (-1))]]),
        ("suggested_improvements", Json.arr [])])).getD []) ∧
    (PdfLine.heading ("Personalized Nutrition") ∈
      (create_pdf_from_json (Json.obj [("summary", Json.str ("ok")),
        ("key_health_concerns", Json.arr [Json.obj [("label", Json.str ("x")),
          ("evidence", Json.str ("e")), ("confidence", Json.num 9 (-1))]]),
        ("suggested_improvements", Json.arr [])])).getD []) := by
  have h := c6_sections (Json.obj [("summary", Json.str ("ok")),
      ("key_health_concerns", Json.arr [Json.obj [("label", Json.str ("x")),
        ("evidence", Json.str ("e")), ("confidence", Json.num 9 (-1))]]),
      ("suggested_improvements", Json.arr [])])
    ((create_pdf_from_json (Json.obj [("summary", Json.str ("ok")),
      ("key_health_concerns", Json.arr [Json.obj [("label", Json.str ("x")),
        ("evidence", Json.str ("e")), ("confidence", Json.num 9 (-1))]]),
      ("suggested_improvements", Json.arr [])])).getD [])
    (by rfl) (by rfl) (by rfl) (by rfl)
  exact ⟨h.1.mpr (by simp [getArrD, jget, lookupKey]),
    fun hm => (h.2.2.1.mp hm) (by rfl),
    h.2.2.2⟩

/-! The schema validator and the `/process` orchestrator
(`validate_json_schema` and `process` in `src/app.py`). -/

/-- Source `validate_json_schema`: the three required top-level keys are
present, values unconstrained (`k in j` on the parsed dict; extraction
always yields a dict, so the non-dict branch is unreachable). -/
def validate_json_schema : Json → Bool
  | .obj fs =>
    (["transcript", "summary", "personalized_nutrition"]).all
      (fun k => fs.any (fun p => p.1 == k))
  | _ => false

/-- Python `d[k] = v` on the parsed object (only ever applied to the
extracted dict). -/
def jsonSetItem (j : Json) (k : String) (v : Json) : Json :=
  match j with
  | .obj fs => .obj (objInsert fs k v)
  | other => other

/-- The success payload of `/process`: the (possibly annotated) parsed
object, the `report_text` field, and whether a PDF URL is present
(`true` models the concrete `/static/reports/…` URL, `false` the null
of a failed render). -/
structure ProcResponse where
  json : Json
  report_text : String
  pdf_url : Bool

/-- Outcome of the `/process` handler: a 400 client error, a 500 server
error carrying a message and a detail string, or the 200 payload. -/
inductive ProcResult where
  | clientError : String → ProcResult
  | serverError : String → String → ProcResult
  | ok : ProcResponse → ProcResult

/-- The `/process` pipeline after the upload check, with the external
model call abstracted as its outcome (`.error e` models a raised
exception with text `e`, `.ok raw` the returned text).  The second
component lists the PDF documents written to disk, one per successful
`canvas.save`.  Extraction failure answers 500 with the raw text for
debugging; a validation failure adds the warning marker and continues;
a render failure degrades to a null `pdf_url`. -/
def processModel (mr : Except String String) :
    ProcResult × List (List PdfLine) :=
  match mr with
  | .error e => (.serverError ("Model call failed") e, [])
  | .ok raw =>
    match extract_first_json raw with
    | (none, _) =>
      (.serverError ("Could not extract JSON from model output") raw, [])
    | (some pj, remainder) =>
      let pj2 := if validate_json_schema pj then pj
        else jsonSetItem pj ("_validation_warning")
          (.str ("Missing required top-level keys"))
      match create_pdf_from_json pj2 with
      | some doc =>
        (.ok ⟨pj2, (if (pyStripS remainder).isEmpty then raw
          else pyStripS remainder), true⟩, [doc])
      | none =>
        (.ok ⟨pj2, (if (pyStripS remainder).isEmpty then raw
          else pyStripS remainder), false⟩, [])

/-- Shape of every successful run of the pipeline: extraction succeeded,
the response object is the parsed JSON with the warning marker added
exactly when validation failed, and `report_text` is the stripped
leftover unless that is empty, in which case it is the whole raw text. -/
theorem processModel_ok_shape (raw : String) (pj : Json) (rem : String)
    (hx : extract_first_json raw = (some pj, rem)) :
    ∃ r files, processModel (.ok raw) = (.ok r, files) ∧
      r.json = (if validate_json_schema pj then pj
        else jsonSetItem pj ("_validation_warning")
          (Json.str ("Missing required top-level keys"))) ∧
      r.report_text =
        (if (pyStripS rem).isEmpty then raw else pyStripS rem) := by
  rcases hc : create_pdf_from_json (if validate_json_schema pj then pj
      else jsonSetItem pj ("_validation_warning")
        (Json.str ("Missing required top-level keys"))) with _ | doc
  · refine ⟨⟨_, _, false⟩, [], ?_, rfl, rfl⟩
    simp only [processModel, hx, hc]
    rfl
  · refine ⟨⟨_, _, true⟩, [doc], ?_, rfl, rfl⟩
    simp only [processModel, hx, hc]
    rfl

/-- C7: the Schema Validator returns true iff all three of `transcript`,
`summary` and `personalized_nutrition` are present as top-level keys
(values unconstrained — nothing else is checked); and whenever it
returns false on an extracted object, the orchestrator adds the warning
marker key to the object and still answers with the success payload
instead of rejecting the request. -/
theorem c7_validator (fs : List (String × Json)) (raw : String) (pj : Json)
    (rem : String)
    (hx : extract_first_json raw = (some pj, rem))
    (hv : validate_json_schema pj = false) :
    (validate_json_schema (Json.obj fs) = true ↔
      ((fs.any (fun p => p.1 == ("transcript"))) = true ∧
       (fs.any (fun p => p.1 == ("summary"))) = true ∧
       (fs.any (fun p => p.1 == ("personalized_nutrition"))) = true)) ∧
    (∃ r files, processModel (.ok raw) = (.ok r, files) ∧
      r.json = jsonSetItem pj ("_validation_warning")
        (Json.str ("Missing required top-level keys"))) := by
  constructor
  · simp [validate_json_schema]
  · obtain ⟨r, files, hp, hjson, _⟩ := processModel_ok_shape raw pj rem hx
    refine ⟨r, files, hp, ?_⟩
    rw [hjson, hv]
    simp

/-- Witness for C7: a minimal object missing all required keys gets the
warning marker and an ok response. -/
theorem c7_witness :
    ∃ r files, processModel (.ok ("\x7b\"a\":1\x7d")) = (.ok r, files) ∧
      r.json = jsonSetItem (Json.obj [("a", Json.num 1 0)])
        ("_validation_warning")
        (Json.str ("Missing required top-level keys")) :=
  (c7_validator [] ("\x7b\"a\":1\x7d") (Json.obj [("a", Json.num 1 0)]) ""
    rfl rfl).2

/-- C8: when the model call raises, the orchestrator answers with the
server error wrapping the generic message together with the underlying
error detail string, and no PDF document is created — the pipeline
returns before any rendering step. -/
theorem c8_model_failure (e : String) :
    processModel (.error e) = (.serverError ("Model call failed") e, []) :=
  rfl

/-- C10: when extraction succeeds but the leftover remainder strips to
the empty string, the response's `report_text` is the entire raw model
output (JSON portion included), not the empty string. -/
theorem c10_empty_leftover (raw : String) (pj : Json) (rem : String)
    (hx : extract_first_json raw = (some pj, rem))
    (he : (pyStripS rem).isEmpty = true) :
    ∃ r files, processModel (.ok raw) = (.ok r, files) ∧
      r.report_text = raw := by
  obtain ⟨r, files, hp, _, hrep⟩ := processModel_ok_shape raw pj rem hx
  exact ⟨r, files, hp, by rw [hrep, if_pos he]⟩

/-- Witness for C10: a bare JSON object leaves an empty leftover, and
the response's report text is the raw output itself. -/
theorem c10_witness :
    ∃ r files, processModel (.ok ("\x7b\"a\":1\x7d")) = (.ok r, files) ∧
      r.report_text = "\x7b\"a\":1\x7d" :=
  c10_empty_leftover ("\x7b\"a\":1\x7d") (Json.obj [("a", Json.num 1 0)])
    "" rfl rfl

/-! Confidence values through the pipeline (C9). -/

/-- The confidence values carried by a report object, at the locations
the data model lists: each entry of `key_health_concerns`,
`dietary_habits` and `allergies_or_restrictions`, plus the
`tone_emotion` record (observation function for stating C9). -/
def confidencesOf (j : Json) : List Json :=
  ((["key_health_concerns", "dietary_habits",
     "allergies_or_restrictions"]).map (fun k =>
    match jget j k with
    | some (.arr items) => items.filterMap (fun it =>
        match it with
        | .obj fs => lookupKey fs ("confidence")
        | _ => none)
    | _ => [])).flatten ++
  (match jget j ("tone_emotion") with
   | some (.obj fs) => (lookupKey fs ("confidence")).toList
   | _ => [])

/-- Whether a JSON number lies in the closed interval [0, 1]. -/
def inUnitInterval : Json → Bool
  | .num m e =>
    if 0 ≤ e then
      decide (0 ≤ m * 10 ^ e.toNat ∧ m * 10 ^ e.toNat ≤ 1)
    else decide (0 ≤ m ∧ m ≤ 10 ^ (-e).toNat)
  | _ => false

/-- The report object of a success response. -/
def procJsonOf : ProcResult → Option Json
  | .ok r => some r.json
  | _ => none

/-- Raw model output whose JSON carries the confidence 5. -/
def c9raw : String :=
  "\x7b\"transcript\":\"t\",\"summary\":\"s\",\"personalized_nutrition\":\x7b\x7d,\"key_health_concerns\":[\x7b\"label\":\"x\",\"evidence\":\"e\",\"confidence\":5\x7d]\x7d"

set_option maxRecDepth 20000 in
/-- C9 counterexample: the pipeline neither rejects nor clamps
out-of-range confidences: processing model output whose JSON carries
`confidence: 5` succeeds, and the produced report's only confidence
value is 5, outside [0, 1]. -/
theorem c9_counterexample :
    (procJsonOf (processModel (.ok c9raw)).1).map confidencesOf =
      some [Json.num 5 0] ∧
    inUnitInterval (Json.num 5 0) = false := ⟨rfl, rfl⟩

theorem find_map_replace (ps : List (String × Json)) (k k' : String)
    (v : Json) (hne : k' ≠ k) :
    List.find? (fun p => p.1 == k)
      (ps.map (fun p => if (p.1 == k') = true then (k', v) else p)) =
    List.find? (fun p => p.1 == k) ps := by
  induction ps with
  | nil => rfl
  | cons p ps ih =>
    rw [List.map_cons, List.find?_cons, List.find?_cons]
    by_cases hp : p.1 = k'
    · have h1 : ((if (p.1 == k') = true then (k', v) else p) : String × Json)
          = (k', v) := by
        simp [hp]
      have h2 : ((k', v).1 == k) = false := by
        simp [hne]
      have h3 : (p.1 == k) = false := by
        simp [hp, hne]
      rw [h1, h2, h3]
      exact ih
    · have h1 : ((if (p.1 == k') = true then (k', v) else p) : String × Json)
          = p := by
        simp [hp]
      rw [h1]
      by_cases hq : p.1 = k
      · have h2 : (p.1 == k) = true := by simp [hq]
        rw [h2]
      · have h2 : (p.1 == k) = false := by simp [hq]
        rw [h2]
        exact ih

theorem find_append_single (ps : List (String × Json)) (k k' : String)
    (v : Json) (hne : k' ≠ k) :
    List.find? (fun p => p.1 == k) (ps ++ [(k', v)]) =
    List.find? (fun p => p.1 == k) ps := by
  induction ps with
  | nil =>
    rw [List.nil_append, List.find?_cons]
    have h2 : ((k', v).1 == k) = false := by
      simp [hne]
    rw [h2]
  | cons p ps ih =>
    rw [List.cons_append, List.find?_cons, List.find?_cons]
    by_cases hq : p.1 = k
    · have h2 : (p.1 == k) = true := by simp [hq]
      rw [h2]
    · have h2 : (p.1 == k) = false := by simp [hq]
      rw [h2]
      exact ih

theorem lookupKey_objInsert_ne (fs : List (String × Json)) (k k' : String)
    (v : Json) (hne : k' ≠ k) :
    lookupKey (objInsert fs k' v) k = lookupKey fs k := by
  unfold objInsert lookupKey
  split
  · rw [find_map_replace fs k k' v hne]
  · rw [find_append_single fs k k' v hne]

theorem confidencesOf_setWarning (pj : Json) :
    confidencesOf (jsonSetItem pj ("_validation_warning")
      (Json.str ("Missing required top-level keys"))) = confidencesOf pj := by
  rcases pj with _ | b | ⟨m, e⟩ | _ | b | s | l | fs <;> try rfl
  have h1 := lookupKey_objInsert_ne fs ("key_health_concerns")
    ("_validation_warning") (Json.str ("Missing required top-level keys"))
    (by decide)
  have h2 := lookupKey_objInsert_ne fs ("dietary_habits")
    ("_validation_warning") (Json.str ("Missing required top-level keys"))
    (by decide)
  have h3 := lookupKey_objInsert_ne fs ("allergies_or_restrictions")
    ("_validation_warning") (Json.str ("Missing required top-level keys"))
    (by decide)
  have h4 := lookupKey_objInsert_ne fs ("tone_emotion")
    ("_validation_warning") (Json.str ("Missing required top-level keys"))
    (by decide)
  unfold confidencesOf
  simp only [jsonSetItem, jget, List.map_cons, List.map_nil, h1, h2, h3, h4]

/-- C9 amended: the pipeline performs no range check on confidences:
whatever confidence values the extracted JSON carries are propagated
unchanged into the response's report object (the only mutation between
extraction and response is the validation-warning marker, which touches
none of the confidence-bearing fields). -/
theorem c9_amended_propagation (raw : String) (pj : Json) (rem : String)
    (hx : extract_first_json raw = (some pj, rem)) :
    ∃ r files, processModel (.ok raw) = (.ok r, files) ∧
      confidencesOf r.json = confidencesOf pj := by
  obtain ⟨r, files, hp, hjson, _⟩ := processModel_ok_shape raw pj rem hx
  refine ⟨r, files, hp, ?_⟩
  rw [hjson]
  by_cases hv : validate_json_schema pj = true
  · rw [if_pos hv]
  · rw [if_neg hv]
    exact confidencesOf_setWarning pj

set_option maxRecDepth 20000 in
/-- Witness for the amended C9 at the counterexample input: the
confidence 5 survives the pipeline unchanged. -/
theorem c9_amended_witness :
    ∃ r files, processModel (.ok c9raw) = (.ok r, files) ∧
      confidencesOf r.json =
        confidencesOf (Json.obj [("transcript", Json.str ("t")),
          ("summary", Json.str ("s")),
          ("personalized_nutrition", Json.obj []),
          ("key_health_concerns", Json.arr [Json.obj
            [("label", Json.str ("x")), ("evidence", Json.str ("e")),
             ("confidence", Json.num 5 0)]])]) :=
  c9_amended_propagation c9raw
    (Json.obj [("transcript", Json.str ("t")),
      ("summary", Json.str ("s")),
      ("personalized_nutrition", Json.obj []),
      ("key_health_concerns", Json.arr [Json.obj
        [("label", Json.str ("x")), ("evidence", Json.str ("e")),
         ("confidence", Json.num 5 0)]])]) "" rfl

end Audiobot
